import Mathlib

/-!
Shallow embedding of the go-asyncjob library core: the generic graph
container (src/graph/graph.go), the step builders and their instrumented
step bodies (package asyncjob source embedded in src/util_test.go), the
linear retry policy (src/util_test.go), and — where the repository file is
not present under src/ (job.go, error.go, retryer.go, stepinstance.go,
the DOT template) — definitions modelled from the specification, each
marked `Modelled from the spec:` in its doc comment.

Go maps are modelled as association lists (insertion order); Go map
iteration order, which is unspecified in Go, is modelled by passing an
explicit iteration order (a permutation of the keys).  time.Now() /
time.Since readings are passed in as explicit natural-number clock values.
Fallible Go functions returning (T, error) are modelled with Except.
-/

namespace AsyncJob

/-! ### Error model (error.go is not under src/; kinds follow spec section 7) -/

/-- Error kinds of the library, from spec section 6/7:
`code ∈ StepFailed, PrecedentStepFailure, JobSealed, DuplicateStep, StepNotFound, JobCanceled`. -/
inductive ErrorCode where
  | stepFailed
  | precedentStepFailure
  | jobSealed
  | duplicateStep
  | stepNotFound
  | jobCanceled
  deriving DecidableEq, Repr

/-- Errors that flow through the library: user errors from step functions,
job errors with a code (spec `JobError`), job errors wrapping a cause, and
step errors wrapping a step name and a cause. -/
inductive GoError where
  | user (msg : String)
  | jobError (code : ErrorCode) (msg : String)
  | jobErrorWrap (code : ErrorCode) (cause : GoError)
  | stepError (stepName : String) (cause : GoError)
  deriving DecidableEq, Repr

/-- Modelled from the spec: error.go is not under src/.  `newJobError`
builds a `JobError` with the given code (used by the instrumented bodies in
src/util_test.go as `newJobError(ErrPrecedentStepFailure, "")`). -/
def newJobError (code : ErrorCode) (msg : String) : GoError :=
  .jobError code msg

/-- Modelled from the spec: error.go is not under src/.  `newStepError`
wraps a user error with the failing step's name; its surfaced code is
`StepFailed` (spec section 7, and the tests' `jobErr.Code == ErrStepFailed`). -/
def newStepError (stepName : String) (cause : GoError) : GoError :=
  .stepError stepName cause

/-- The `JobError` code surfaced by an error, if any (spec section 6:
`JobError{code, stepInstance?, cause}`; a step error surfaces `StepFailed`). -/
def GoError.errCode : GoError → Option ErrorCode
  | .user _ => none
  | .jobError c _ => some c
  | .jobErrorWrap c _ => some c
  | .stepError _ _ => some ErrorCode.stepFailed

/-! ### Association-list model of Go maps -/

/-- Lookup in an association list modelling a Go map (`m[k]`). -/
def assocGet {α : Type} (l : List (String × α)) (k : String) : Option α :=
  match l with
  | [] => none
  | (k₁, v) :: rest => if k₁ = k then some v else assocGet rest k

/-- Append to the slice stored at key `k` of a Go map of slices
(`m[k] = append(m[k], e)`; a missing key reads as the empty slice). -/
def appendAt {ε : Type} (l : List (String × List ε)) (k : String) (e : ε) :
    List (String × List ε) :=
  match l with
  | [] => [(k, [e])]
  | (k₁, es) :: rest =>
    if k₁ = k then (k₁, es ++ [e]) :: rest else (k₁, es) :: appendAt rest k e

/-! ### Graph container (src/graph/graph.go) -/

/-- `DotNodeSpec` from src/graph/graph.go: the DOT specification of a node. -/
structure DotNodeSpec where
  ID : String
  Name : String
  Tooltip : String
  Shape : String
  Style : String
  FillColor : String
  deriving DecidableEq, Repr

/-- `DotEdgeSpec` from src/graph/graph.go: the DOT specification of an edge. -/
structure DotEdgeSpec where
  FromNodeID : String
  ToNodeID : String
  Tooltip : String
  Style : String
  Color : String
  deriving DecidableEq, Repr

/-- Errors of the graph package (`ErrDuplicateNode`, `ErrConnectNotExistingNode`). -/
inductive GraphError where
  | duplicateNode
  | connectNotExistingNode
  deriving DecidableEq, Repr

/-- `Graph[NT]` from src/graph/graph.go: nodes keyed by their DotSpec ID,
out-edges per node key, and the edge-spec function.  The `NodeConstrain`
capability `DotSpec()` is carried as the `dotSpec` field. -/
structure Graph (NT : Type) where
  dotSpec : NT → DotNodeSpec
  edgeSpecFunc : NT → NT → DotEdgeSpec
  nodes : List (String × NT)
  nodeEdges : List (String × List (NT × NT))

/-- `NewGraph` from src/graph/graph.go. -/
def NewGraph {NT : Type} (dotSpec : NT → DotNodeSpec)
    (edgeSpecFunc : NT → NT → DotEdgeSpec) : Graph NT :=
  { dotSpec := dotSpec, edgeSpecFunc := edgeSpecFunc, nodes := [], nodeEdges := [] }

/-- `Graph.AddNode` from src/graph/graph.go: key the node by `DotSpec().ID`,
fail with `ErrDuplicateNode` if the key is present, otherwise insert. -/
def Graph.addNode {NT : Type} (g : Graph NT) (n : NT) : Except GraphError (Graph NT) :=
  let nodeKey := (g.dotSpec n).ID
  match assocGet g.nodes nodeKey with
  | some _ => .error GraphError.duplicateNode
  | none => .ok { g with nodes := g.nodes ++ [(nodeKey, n)] }

/-- `Graph.Connect` from src/graph/graph.go: both endpoints must be present,
otherwise `ErrConnectNotExistingNode`; on success append the edge to the
out-edge slice of `fromId`. -/
def Graph.connect {NT : Type} (g : Graph NT) (fromId toId : String) :
    Except GraphError (Graph NT) :=
  match assocGet g.nodes fromId with
  | none => .error GraphError.connectNotExistingNode
  | some nodeFrom =>
    match assocGet g.nodes toId with
    | none => .error GraphError.connectNotExistingNode
    | some nodeTo =>
      .ok { g with nodeEdges := appendAt g.nodeEdges fromId (nodeFrom, nodeTo) }

/-- Out-edge slice of a node key (`g.nodeEdges[k]`, empty when absent). -/
def Graph.edgesAt {NT : Type} (g : Graph NT) (k : String) : List (NT × NT) :=
  (assocGet g.nodeEdges k).getD []

/-! ### DOT rendering (src/graph/graph.go `ToDotGraph`; the template file is
not under src/, so the per-statement text is modelled from the spec).  Go
iterates `g.nodes` and `g.nodeEdges` with `range` over maps, whose order is
unspecified; the order is therefore an explicit argument. -/

/-- Modelled from the spec: the digraph template is not under src/; one DOT
node statement rendered from a `DotNodeSpec` (spec section 6: node
attributes id/label/shape/style/fillcolor/tooltip). -/
def dotNodeStatement (s : DotNodeSpec) : String :=
  s.ID ++ " [label=\"" ++ s.Name ++ "\" shape=" ++ s.Shape ++ " style=" ++
    s.Style ++ " fillcolor=" ++ s.FillColor ++ " tooltip=\"" ++ s.Tooltip ++ "\"]"

/-- Modelled from the spec: the digraph template is not under src/; one DOT
edge statement rendered from a `DotEdgeSpec` (edge direction preserved as
`from -> to`). -/
def dotEdgeStatement (s : DotEdgeSpec) : String :=
  s.FromNodeID ++ " -> " ++ s.ToNodeID ++ " [style=" ++ s.Style ++
    " color=" ++ s.Color ++ " tooltip=\"" ++ s.Tooltip ++ "\"]"

/-- The node specs collected by `ToDotGraph`'s loop over `g.nodes`, in the
given map-iteration order. -/
def Graph.nodeSpecsIn {NT : Type} (g : Graph NT) (order : List String) :
    List DotNodeSpec :=
  order.filterMap (fun k => (assocGet g.nodes k).map g.dotSpec)

/-- The edge specs collected by `ToDotGraph`'s loop over `g.nodeEdges`, in
the given map-iteration order (the slice at each key is iterated in slice
order, as in the source). -/
def Graph.edgeSpecsIn {NT : Type} (g : Graph NT) (order : List String) :
    List DotEdgeSpec :=
  order.flatMap (fun k =>
    ((assocGet g.nodeEdges k).getD []).map (fun e => g.edgeSpecFunc e.1 e.2))

/-- `Graph.ToDotGraph` from src/graph/graph.go, with the two Go map
iteration orders passed explicitly: collect node specs, collect edge specs,
render the digraph block. -/
def Graph.toDotGraph {NT : Type} (g : Graph NT) (nodeOrder edgeOrder : List String) :
    String :=
  "digraph \x7b\n" ++
    String.intercalate "\n" ((g.nodeSpecsIn nodeOrder).map dotNodeStatement) ++ "\n" ++
    String.intercalate "\n" ((g.edgeSpecsIn edgeOrder).map dotEdgeStatement) ++
  "\n\x7d"

/-! ### Step definitions and the job-definition builder layer
(builders from the asyncjob source embedded in src/util_test.go; job.go is
not under src/, so the step registry, the sealed latch and the duplicate
check are modelled from the spec) -/

/-- The part of a `StepDefinition` the builders use: its name and its
`executionOptions.DependOn` list of predecessor names. -/
structure StepDefMeta where
  name : String
  dependOn : List String
  deriving DecidableEq, Repr

/-- The part of a `JobDefinition` the builders use: the root step, the step
registry (name to step), the dependency edges (predecessor name, successor
name), and the sealed latch. -/
structure JobDefinition where
  name : String
  rootStep : StepDefMeta
  steps : List (String × StepDefMeta)
  stepEdges : List (String × String)
  sealedFlag : Bool
  deriving DecidableEq, Repr

/-- Modelled from the spec: job.go is not under src/.  `NewJobDefinition`
creates the definition with a synthetic root step, unsealed (spec 4.5:
`new[P](name)` creates the root step; spec 3: `sealed` starts false). -/
def newJobDefinition (name : String) : JobDefinition :=
  let root : StepDefMeta := ⟨name, []⟩
  ⟨name, root, [(name, root)], [], false⟩

/-- The builder error of `getDependsOnSteps` in src/util_test.go:
`fmt.Errorf("step [%s] not found")`, of kind `StepNotFound` (spec 7). -/
def errStepNotFound (d : String) : GoError :=
  .jobError .stepNotFound ("step [" ++ d ++ "] not found")

/-- The builder error of the parent-membership check in `StepAfter` /
`StepAfterBoth` in src/util_test.go: `fmt.Errorf("step [%s] not found in
job")`, of kind `StepNotFound` (spec 7). -/
def errParentNotFound (d : String) : GoError :=
  .jobError .stepNotFound ("step [" ++ d ++ "] not found in job")

/-- Modelled from the spec: job.go is not under src/.  The builder error on
step-name collision, of kind `DuplicateStep` (spec 4.4, 7). -/
def errDuplicateStep (n : String) : GoError :=
  .jobError .duplicateStep n

/-- Modelled from the spec: job.go is not under src/.  The builder error
after sealing, of kind `JobSealed` (spec 4.4, 7). -/
def errJobSealed : GoError :=
  .jobError .jobSealed ""

/-- `getDependsOnSteps` from src/util_test.go: resolve every name of
`dependOn` in the job's registry, in order, failing at the first missing
name. -/
def getDependsOnSteps (dependOn : List String) (j : JobDefinition) :
    Except GoError (List StepDefMeta) :=
  match dependOn with
  | [] => .ok []
  | d :: rest =>
    match assocGet j.steps d with
    | some s => (getDependsOnSteps rest j).map (fun l => s :: l)
    | none => .error (errStepNotFound d)

/-- Modelled from the spec: job.go is not under src/.  `j.AddStep(stepD,
precedingDefSteps...)` registers the step and adds one dependency edge from
each preceding step (spec 3: graph holds edges predecessor to successor). -/
def jobRegisterStep (j : JobDefinition) (stepD : StepDefMeta)
    (preceding : List StepDefMeta) : JobDefinition :=
  { j with
    steps := j.steps ++ [(stepD.name, stepD)]
    stepEdges := j.stepEdges ++ preceding.map (fun p => (p.name, stepD.name)) }

/-- `AddStep` from src/util_test.go (definition-time part), with the sealed
and duplicate guards modelled from the spec (4.4): resolve the decorator
dependencies; if none, gate the step on the root step (appending the root
to both the preceding list and `DependOn`, as the source does); register.
Returns the original definition on error. -/
def addStep (j : JobDefinition) (stepName : String) (decoratorDeps : List String) :
    JobDefinition × Except GoError StepDefMeta :=
  if j.sealedFlag then (j, .error errJobSealed)
  else if (assocGet j.steps stepName).isSome then
    (j, .error (errDuplicateStep stepName))
  else
    match getDependsOnSteps decoratorDeps j with
    | .error e => (j, .error e)
    | .ok preceding =>
      if preceding.isEmpty then
        (jobRegisterStep j ⟨stepName, decoratorDeps ++ [j.rootStep.name]⟩ [j.rootStep],
         .ok ⟨stepName, decoratorDeps ++ [j.rootStep.name]⟩)
      else
        (jobRegisterStep j ⟨stepName, decoratorDeps⟩ preceding,
         .ok ⟨stepName, decoratorDeps⟩)

/-- `StepAfter` from src/util_test.go (definition-time part), with the
sealed and duplicate guards modelled from the spec (4.4): check the parent
is this job's registered step of that name (source: `GetStep` must return
the very same step), append `ExecuteAfter(parentStep)` to the decorators,
resolve dependencies, gate on the root if none, register. -/
def stepAfter (j : JobDefinition) (stepName : String) (parentStep : StepDefMeta)
    (decoratorDeps : List String) : JobDefinition × Except GoError StepDefMeta :=
  if j.sealedFlag then (j, .error errJobSealed)
  else if assocGet j.steps parentStep.name = some parentStep then
    if (assocGet j.steps stepName).isSome then
      (j, .error (errDuplicateStep stepName))
    else
      match getDependsOnSteps (decoratorDeps ++ [parentStep.name]) j with
      | .error e => (j, .error e)
      | .ok preceding =>
        if preceding.isEmpty then
          (jobRegisterStep j ⟨stepName, decoratorDeps ++ [parentStep.name]⟩ [j.rootStep],
           .ok ⟨stepName, decoratorDeps ++ [parentStep.name]⟩)
        else
          (jobRegisterStep j ⟨stepName, decoratorDeps ++ [parentStep.name]⟩ preceding,
           .ok ⟨stepName, decoratorDeps ++ [parentStep.name]⟩)
  else (j, .error (errParentNotFound parentStep.name))

/-- `StepAfterBoth` from src/util_test.go (definition-time part), with the
sealed and duplicate guards modelled from the spec (4.4): check both
parents, append `ExecuteAfter` for each, resolve, gate on root if none,
register. -/
def stepAfterBoth (j : JobDefinition) (stepName : String)
    (parentStepT parentStepS : StepDefMeta) (decoratorDeps : List String) :
    JobDefinition × Except GoError StepDefMeta :=
  if j.sealedFlag then (j, .error errJobSealed)
  else if assocGet j.steps parentStepT.name = some parentStepT then
    if assocGet j.steps parentStepS.name = some parentStepS then
      if (assocGet j.steps stepName).isSome then
        (j, .error (errDuplicateStep stepName))
      else
        match getDependsOnSteps (decoratorDeps ++ [parentStepT.name, parentStepS.name]) j with
        | .error e => (j, .error e)
        | .ok preceding =>
          if preceding.isEmpty then
            (jobRegisterStep j
              ⟨stepName, decoratorDeps ++ [parentStepT.name, parentStepS.name]⟩ [j.rootStep],
             .ok ⟨stepName, decoratorDeps ++ [parentStepT.name, parentStepS.name]⟩)
          else
            (jobRegisterStep j
              ⟨stepName, decoratorDeps ++ [parentStepT.name, parentStepS.name]⟩ preceding,
             .ok ⟨stepName, decoratorDeps ++ [parentStepT.name, parentStepS.name]⟩)
    else (j, .error (errParentNotFound parentStepS.name))
  else (j, .error (errParentNotFound parentStepT.name))

/-- `StepFromJobInput` from src/util_test.go: delegates to `StepAfter` with
the job's root step as parent. -/
def stepFromJobInput (j : JobDefinition) (stepName : String)
    (decoratorDeps : List String) : JobDefinition × Except GoError StepDefMeta :=
  stepAfter j stepName j.rootStep decoratorDeps

/-! ### Job-definition lifecycle operations (for the sealing invariant) -/

/-- An operation on a job definition: explicit `Seal`, `Start` (which seals
on first call, spec 4.5), or a builder invocation. -/
inductive JobOp where
  | seal
  | start
  | builder (stepName : String) (deps : List String)
  deriving DecidableEq, Repr

/-- Modelled from the spec: job.go is not under src/.  `Seal` and `Start`
set the sealed latch (spec 4.5: `start` seals the definition on first
call); a builder invocation runs `addStep`. -/
def applyOp (j : JobDefinition) : JobOp → JobDefinition × Option GoError
  | .seal => ({ j with sealedFlag := true }, none)
  | .start => ({ j with sealedFlag := true }, none)
  | .builder n deps =>
    let r := addStep j n deps
    (r.1, match r.2 with | .error e => some e | .ok _ => none)

/-- Run a sequence of job-definition operations. -/
def runOps (j : JobDefinition) : List JobOp → JobDefinition
  | [] => j
  | op :: rest => runOps (applyOp j op).1 rest

/-! ### Step instances and the instrumented step body
(the instrumented bodies are in the asyncjob source embedded in
src/util_test.go; stepinstance.go and retryer.go are not under src/) -/

/-- Step lifecycle states (spec 3). -/
inductive StepState where
  | pending
  | running
  | completed
  | failed
  deriving DecidableEq, Repr

/-- `RetryReport` attached to a step's execution data (spec 4.7). -/
structure RetryReport where
  count : Nat
  lastError : Option GoError
  deriving DecidableEq, Repr

/-- Per-step execution data; a `none` field has never been written. -/
structure ExecutionData where
  startTime : Option Nat
  duration : Option Nat
  retried : Option RetryReport
  deriving DecidableEq, Repr

/-- Runtime step instance: name, state, execution data (spec 3). -/
structure StepInstance where
  name : String
  state : StepState
  executionData : ExecutionData
  deriving DecidableEq, Repr

/-- Modelled from the spec: stepinstance.go is not under src/.  A fresh
step instance is `Pending` with empty execution data (spec 3: states are
`Pending, Running, Completed, Failed` with `Pending` initial). -/
def newStepInstance (name : String) : StepInstance :=
  ⟨name, .pending, ⟨none, none, none⟩⟩

/-- The user-facing `RetryPolicy` capability (spec 6), in state-passing
form for Go's mutable receiver: each call returns its answer and the
updated policy state. -/
structure RetryPolicy (σ : Type) where
  shouldRetry : σ → GoError → Bool × σ
  sleepInterval : σ → Nat × σ

/-- State of `linearRetryPolicy` from src/util_test.go: the configured
sleep interval (in milliseconds), the maximum retry count, and the mutable
`tried` counter. -/
structure LinearRetryState where
  sleepInterval : Nat
  maxRetryCount : Nat
  tried : Nat
  deriving DecidableEq, Repr

/-- `linearRetryPolicy` from src/util_test.go: `SleepInterval` increments
`tried` and returns the configured interval; `ShouldRetry` is true while
`tried < maxRetryCount`. -/
def linearRetryPolicy : RetryPolicy LinearRetryState where
  shouldRetry := fun s _ => (decide (s.tried < s.maxRetryCount), s)
  sleepInterval := fun s => (s.sleepInterval, { s with tried := s.tried + 1 })

/-- `newLinearRetryPolicy` from src/util_test.go. -/
def newLinearRetryPolicy (interval maxRetryCount : Nat) : LinearRetryState :=
  ⟨interval, maxRetryCount, 0⟩

/-- Modelled from the spec: retryer.go is not under src/.  The retry driver
(spec 4.7): run an attempt; on error, return it if the context is canceled
or the policy declines, otherwise sleep, count the retry in the report, and
re-run.  `body` gives the outcome of each attempt (0-indexed); `fuel`
bounds the number of retries (any fuel at least the number of retries the
policy grants yields the driver's behavior); the result carries the final
value, the report, and the total number of attempts made. -/
def retryerRun {σ α : Type} (pol : RetryPolicy σ) (ctxCanceled : Bool)
    (body : Nat → Except GoError α) :
    Nat → σ → Nat → RetryReport → Except GoError α × RetryReport × Nat
  | 0, _, n, rep =>
    (match body n with
     | .ok v => (.ok v, rep, n + 1)
     | .error e => (.error e, rep, n + 1))
  | fuel + 1, s, n, rep =>
    match body n with
    | .ok v => (.ok v, rep, n + 1)
    | .error e =>
      if ctxCanceled then (.error e, rep, n + 1)
      else if (pol.shouldRetry s e).1 then
        retryerRun pol ctxCanceled body fuel
          (pol.sleepInterval (pol.shouldRetry s e).2).2 (n + 1)
          ⟨rep.count + 1, some e⟩
      else (.error e, rep, n + 1)

/-- Observable events of one instrumented step body, in program order. -/
inductive BodyEvent where
  | waitPreceding (failed : Bool)
  | setStartTime (t : Nat)
  | setState (s : StepState)
  | invokeUser (attempt : Nat)
  | setDuration (d : Nat)
  deriving DecidableEq, Repr

/-- Modelled from the spec: `asynctask.WaitAll` is an external collaborator
(spec 4.2): succeeds iff every preceding task succeeded, otherwise returns
the first failure. -/
def waitAll (precedingErrs : List (Option GoError)) : Option GoError :=
  precedingErrs.findSome? id

/-- The instrumented step body shared by `AddStep` / `StepAfter` /
`StepAfterBoth` in src/util_test.go: first `WaitAll` on the preceding
(ordering) tasks, terminating with `newJobError(ErrPrecedentStepFailure,
"")` on failure without touching the instance; otherwise record the start
time, mark `Running`, run the user function (through the retry driver when
a policy is configured, recording a `RetryReport`), record the duration,
then mark `Failed` and wrap in a step error, or mark `Completed` and return
the result.  `now` and `dur` are the `time.Now()` / `time.Since` readings;
the returned event list records the body's actions in program order. -/
def instrumentedBody (σ α : Type) (stepName : String)
    (retry : Option (RetryPolicy σ × σ × Nat))
    (precedingErrs : List (Option GoError))
    (body : Nat → Except GoError α)
    (inst : StepInstance) (now dur : Nat) :
    StepInstance × Except GoError α × List BodyEvent :=
  match waitAll precedingErrs with
  | some _ =>
    (inst, .error (newJobError .precedentStepFailure ""), [.waitPreceding true])
  | none =>
    let inst1 : StepInstance :=
      { inst with
        executionData := { inst.executionData with startTime := some now }
        state := StepState.running }
    let runOut : Except GoError α × Option RetryReport × Nat :=
      match retry with
      | some (pol, s0, fuel) =>
        let r := retryerRun pol false body fuel s0 0 ⟨0, none⟩
        (r.1, some r.2.1, r.2.2)
      | none => (body 0, inst.executionData.retried, 1)
    let inst2 : StepInstance :=
      { inst1 with
        executionData :=
          { inst1.executionData with duration := some dur, retried := runOut.2.1 } }
    let evs : List BodyEvent :=
      [.waitPreceding false, .setStartTime now, .setState .running] ++
        (List.range runOut.2.2).map BodyEvent.invokeUser ++ [.setDuration dur]
    match runOut.1 with
    | .error e =>
      ({ inst2 with state := .failed }, .error (newStepError stepName e),
        evs ++ [.setState .failed])
    | .ok v =>
      ({ inst2 with state := .completed }, .ok v, evs ++ [.setState .completed])

/-- Number of user-function invocations recorded in a body's event trace. -/
def invocationCount (evs : List BodyEvent) : Nat :=
  evs.countP (fun ev => match ev with | .invokeUser _ => true | _ => false)

/-- Modelled from the spec: `asynctask.ContinueWith` is an external
collaborator (spec 4.2): the successor body runs iff the parent completed
successfully; otherwise the successor terminates with a `PrecedentFailure`
error wrapping the parent's error, without invoking the function. -/
def continueWith {T S : Type} (parent : Except GoError T)
    (fn : T → Except GoError S) : Except GoError S :=
  match parent with
  | .error e => .error (.jobErrorWrap .precedentStepFailure e)
  | .ok v => fn v

/-- Modelled from the spec: `asynctask.AfterBoth` is an external
collaborator (spec 4.2): runs the function only after both parents complete
successfully; if either fails, the successor fails with `PrecedentFailure`. -/
def afterBoth {T S R : Type} (p1 : Except GoError T) (p2 : Except GoError S)
    (fn : T → S → Except GoError R) : Except GoError R :=
  match p1, p2 with
  | .error e, _ => .error (.jobErrorWrap .precedentStepFailure e)
  | .ok _, .error e => .error (.jobErrorWrap .precedentStepFailure e)
  | .ok a, .ok b => fn a b

/-! ### Job instance wait (job.go is not under src/) -/

/-- One terminated step of a job instance: its state and its task's
memoized terminal error (`none` on success). -/
structure StepInstanceResult where
  name : String
  state : StepState
  result : Option GoError
  deriving DecidableEq, Repr

/-- A job instance as `wait` observes it: its step instances' terminal
results in step-insertion order. -/
structure JobInstanceModel where
  stepResults : List StepInstanceResult
  deriving DecidableEq, Repr

/-- Every step instance of the job instance is terminal. -/
def JobInstanceModel.Terminated (ji : JobInstanceModel) : Prop :=
  ∀ s ∈ ji.stepResults, s.state = StepState.completed ∨ s.state = StepState.failed

instance (ji : JobInstanceModel) : Decidable ji.Terminated := by
  unfold JobInstanceModel.Terminated
  infer_instance

/-- Modelled from the spec: job.go is not under src/.  `JobInstance.wait`
awaits every step instance's task and returns the first step failure in
step-insertion order, or `none`; the tasks' results are memoized and stable
after termination (spec 3, 4.6), so `wait` does not mutate the instance. -/
def jobWait (ji : JobInstanceModel) : Option GoError × JobInstanceModel :=
  (ji.stepResults.findSome? (fun s => s.result), ji)

/-! ### Concrete sample data used by witnesses -/

/-- A sample DotSpec capability: nodes are their own IDs. -/
def sampleDotSpec (s : String) : DotNodeSpec :=
  ⟨s, s, "", "box", "filled", "white"⟩

/-- A sample edge-spec function. -/
def sampleEdgeSpec (a b : String) : DotEdgeSpec :=
  ⟨a, b, "", "solid", "black"⟩

/-- A sample two-node graph. -/
def sampleGraph : Graph String :=
  { dotSpec := sampleDotSpec
    edgeSpecFunc := sampleEdgeSpec
    nodes := [("a", "a"), ("b", "b")]
    nodeEdges := [] }

/-- A sample fresh job definition. -/
def sampleJobDef : JobDefinition := newJobDefinition "sqlSummaryJob"

/-! ## Theorems -/

/-- Looking up the key just appended to in a Go map of slices sees the old
slice extended by the new element. -/
theorem assocGet_appendAt {ε : Type} (m : List (String × List ε)) (k : String) (e : ε) :
    assocGet (appendAt m k e) k = some ((assocGet m k).getD [] ++ [e]) := by
  induction m with
  | nil => simp [appendAt, assocGet]
  | cons p rest ih =>
    obtain ⟨k₁, es⟩ := p
    by_cases h : k₁ = k <;> simp [appendAt, assocGet, h, ih]

/-- C8: `Graph.AddNode` returns the duplicate error iff a node with the
same `DotSpec().ID` is already present, otherwise it inserts the node and
succeeds; `Graph.Connect` returns the missing-endpoint error iff either
endpoint ID is not a node of the graph, otherwise it appends an edge from
`fromId` to `toId` to `fromId`'s out-edge slice. -/
theorem graph_addNode_connect_spec {NT : Type} (g : Graph NT) (n : NT)
    (fromId toId : String) :
    (g.addNode n = .error .duplicateNode ↔
      (assocGet g.nodes (g.dotSpec n).ID).isSome = true)
    ∧ (assocGet g.nodes (g.dotSpec n).ID = none →
        g.addNode n = .ok { g with nodes := g.nodes ++ [((g.dotSpec n).ID, n)] })
    ∧ (g.connect fromId toId = .error .connectNotExistingNode ↔
        (assocGet g.nodes fromId = none ∨ assocGet g.nodes toId = none))
    ∧ (∀ nf nt, assocGet g.nodes fromId = some nf → assocGet g.nodes toId = some nt →
        g.connect fromId toId =
          .ok { g with nodeEdges := appendAt g.nodeEdges fromId (nf, nt) }
        ∧ ∀ g₁, g.connect fromId toId = .ok g₁ →
            g₁.edgesAt fromId = g.edgesAt fromId ++ [(nf, nt)]) := by
  refine ⟨?_, ?_, ?_, ?_⟩
  · cases h : assocGet g.nodes (g.dotSpec n).ID <;> simp [Graph.addNode, h]
  · intro h; simp [Graph.addNode, h]
  · cases hf : assocGet g.nodes fromId <;> cases ht : assocGet g.nodes toId <;>
      simp [Graph.connect, hf, ht]
  · intro nf nt hf ht
    refine ⟨by simp [Graph.connect, hf, ht], ?_⟩
    intro g₁ hg₁
    simp only [Graph.connect, hf, ht] at hg₁
    cases hg₁
    simp [Graph.edgesAt, assocGet_appendAt]

/-- C8 witness: the theorem applied to the concrete two-node sample graph. -/
theorem graph_addNode_connect_spec_witness :
    sampleGraph.connect "a" "b" =
      .ok { sampleGraph with nodeEdges := appendAt sampleGraph.nodeEdges "a" ("a", "b") }
    ∧ ∀ g₁, sampleGraph.connect "a" "b" = .ok g₁ →
        g₁.edgesAt "a" = sampleGraph.edgesAt "a" ++ [("a", "b")] :=
  (graph_addNode_connect_spec sampleGraph "a" "a" "b").2.2.2 "a" "b"
    (by decide) (by decide)

/-- C4 counterexample: on the same unmutated two-node graph, two renders
that iterate the node map in two different (both valid) orders produce
different output strings — `ToDotGraph` ranges over Go maps, whose
iteration order is unspecified, so byte-level equality of two calls is not
guaranteed. -/
theorem toDotGraph_order_dependent :
    (["a", "b"] : List String).Perm (sampleGraph.nodes.map Prod.fst)
    ∧ (["b", "a"] : List String).Perm (sampleGraph.nodes.map Prod.fst)
    ∧ sampleGraph.toDotGraph ["a", "b"] [] ≠ sampleGraph.toDotGraph ["b", "a"] [] := by
  refine ⟨by decide, by decide, by decide⟩

/-- C4 (amended): rendering the same unmutated graph twice is deterministic
up to map-iteration order: the two calls produce the same multiset of node
specs and of edge specs, and identical output strings whenever the maps are
iterated in the same order. -/
theorem toDotGraph_content_deterministic {NT : Type} (g : Graph NT)
    (o₁ o₂ e₁ e₂ : List String) (ho : o₁.Perm o₂) (he : e₁.Perm e₂) :
    (g.nodeSpecsIn o₁).Perm (g.nodeSpecsIn o₂)
    ∧ (g.edgeSpecsIn e₁).Perm (g.edgeSpecsIn e₂)
    ∧ (o₁ = o₂ → e₁ = e₂ → g.toDotGraph o₁ e₁ = g.toDotGraph o₂ e₂) := by
  refine ⟨ho.filterMap _, he.flatMap_right _, ?_⟩
  intro h₁ h₂
  rw [h₁, h₂]

/-- C4 witness: the amended determinism theorem applied to the sample graph
with two concrete iteration orders. -/
theorem toDotGraph_content_deterministic_witness :
    (sampleGraph.nodeSpecsIn ["a", "b"]).Perm (sampleGraph.nodeSpecsIn ["b", "a"])
    ∧ (sampleGraph.edgeSpecsIn []).Perm (sampleGraph.edgeSpecsIn [])
    ∧ ((["a", "b"] : List String) = ["b", "a"] → ([] : List String) = [] →
        sampleGraph.toDotGraph ["a", "b"] [] = sampleGraph.toDotGraph ["b", "a"] []) :=
  toDotGraph_content_deterministic sampleGraph ["a", "b"] ["b", "a"] [] []
    (by decide) (List.Perm.refl [])

/-- C1: if any predecessor of a step fails, the user step function is never
invoked and the step's instrumented body terminates with an error of kind
`PrecedentFailure`: the `WaitAll` guard returns `newJobError(
ErrPrecedentStepFailure, "")` without running the user function (the
outcome is identical for any two user functions and the trace has no
invocation event), and the data-parent combinators likewise terminate with
a `PrecedentFailure` error without invoking the continuation. -/
theorem step_precedent_failure (σ α T S R : Type) (stepName : String)
    (retry : Option (RetryPolicy σ × σ × Nat))
    (pre : List (Option GoError)) (e : GoError) (hw : waitAll pre = some e)
    (body₁ body₂ : Nat → Except GoError α)
    (inst : StepInstance) (now dur : Nat)
    (parent : Except GoError T) (pe : GoError) (hp : parent = .error pe) :
    instrumentedBody σ α stepName retry pre body₁ inst now dur
      = (inst, .error (newJobError .precedentStepFailure ""), [.waitPreceding true])
    ∧ instrumentedBody σ α stepName retry pre body₁ inst now dur
      = instrumentedBody σ α stepName retry pre body₂ inst now dur
    ∧ (newJobError .precedentStepFailure "").errCode = some .precedentStepFailure
    ∧ (∀ n, BodyEvent.invokeUser n ∉
        (instrumentedBody σ α stepName retry pre body₁ inst now dur).2.2)
    ∧ (∀ fn₁ fn₂ : T → Except GoError S,
        continueWith parent fn₁ = .error (.jobErrorWrap .precedentStepFailure pe)
        ∧ continueWith parent fn₁ = continueWith parent fn₂)
    ∧ (∀ (p₂ : Except GoError S) (gn₁ gn₂ : T → S → Except GoError R),
        afterBoth parent p₂ gn₁ = .error (.jobErrorWrap .precedentStepFailure pe)
        ∧ afterBoth parent p₂ gn₁ = afterBoth parent p₂ gn₂) := by
  subst hp
  refine ⟨by simp [instrumentedBody, hw], by simp [instrumentedBody, hw], rfl, ?_, ?_, ?_⟩
  · intro n
    simp [instrumentedBody, hw]
  · intro fn₁ fn₂
    exact ⟨rfl, rfl⟩
  · intro p₂ gn₁ gn₂
    exact ⟨rfl, rfl⟩

/-- C1 witness: a concrete failing predecessor. -/
theorem step_precedent_failure_witness :
    instrumentedBody Unit Nat "QueryTable1" none [some (GoError.user "boom")]
        (fun _ => .ok 0) (newStepInstance "QueryTable1") 5 7
      = (newStepInstance "QueryTable1",
         .error (newJobError .precedentStepFailure ""), [.waitPreceding true]) :=
  (step_precedent_failure Unit Nat Nat Nat Nat "QueryTable1" none
    [some (GoError.user "boom")] (GoError.user "boom") rfl
    (fun _ => .ok 0) (fun _ => .ok 0) (newStepInstance "QueryTable1") 5 7
    (.error (GoError.user "boom")) (GoError.user "boom") rfl).1

/-- The retry driver always invokes the body at least once (attempts
strictly exceed the starting attempt index). -/
theorem retryerRun_attempts_pos {σ α : Type} (pol : RetryPolicy σ) (c : Bool)
    (body : Nat → Except GoError α) :
    ∀ (fuel : Nat) (s : σ) (n : Nat) (rep : RetryReport),
      n + 1 ≤ (retryerRun pol c body fuel s n rep).2.2 := by
  intro fuel
  induction fuel with
  | zero =>
    intro s n rep
    cases hb : body n <;> simp [retryerRun, hb]
  | succ f ih =>
    intro s n rep
    cases hb : body n with
    | ok v => simp [retryerRun, hb]
    | error e =>
      cases c with
      | true => simp [retryerRun, hb]
      | false =>
        by_cases hr : (pol.shouldRetry s e).1 = true
        · simp only [retryerRun, hb, hr, if_true, Bool.false_eq_true, if_false]
          have hrec := ih (pol.sleepInterval (pol.shouldRetry s e).2).2 (n + 1)
            ⟨rep.count + 1, some e⟩
          omega
        · simp [retryerRun, hb, hr]

/-- C5: when every predecessor completed successfully, the instrumented
body — for any retry configuration — records the start time and marks
`Running` before any user-function invocation and records the duration
after the last one (the event trace fixes this order, and at least one
invocation occurs); then, when the user function (run directly, or through
the retry driver when a policy is set) ends in an error, the step is marked
`Failed` and a step error wrapping the step name and that cause is
returned, while on success the step is marked `Completed` and the user
function's result is returned. -/
theorem step_success_path (σ α : Type) (stepName : String)
    (pre : List (Option GoError)) (body : Nat → Except GoError α)
    (inst : StepInstance) (now dur : Nat) (hw : waitAll pre = none) :
    (∀ retry : Option (RetryPolicy σ × σ × Nat),
      (instrumentedBody σ α stepName retry pre body inst now dur).1.executionData.startTime
        = some now
      ∧ (instrumentedBody σ α stepName retry pre body inst now dur).1.executionData.duration
        = some dur
      ∧ (instrumentedBody σ α stepName retry pre body inst now dur).1.name = inst.name)
    ∧ (∀ e, body 0 = .error e →
        (instrumentedBody σ α stepName none pre body inst now dur).1.state = .failed
        ∧ (instrumentedBody σ α stepName none pre body inst now dur).2.1
            = .error (newStepError stepName e)
        ∧ (instrumentedBody σ α stepName none pre body inst now dur).2.2
            = [.waitPreceding false, .setStartTime now, .setState .running,
               .invokeUser 0, .setDuration dur, .setState .failed])
    ∧ (∀ v, body 0 = .ok v →
        (instrumentedBody σ α stepName none pre body inst now dur).1.state = .completed
        ∧ (instrumentedBody σ α stepName none pre body inst now dur).2.1 = .ok v
        ∧ (instrumentedBody σ α stepName none pre body inst now dur).2.2
            = [.waitPreceding false, .setStartTime now, .setState .running,
               .invokeUser 0, .setDuration dur, .setState .completed])
    ∧ (∀ (pol : RetryPolicy σ) (s₀ : σ) (fuel : Nat),
        1 ≤ (retryerRun pol false body fuel s₀ 0 ⟨0, none⟩).2.2
        ∧ (∀ e, (retryerRun pol false body fuel s₀ 0 ⟨0, none⟩).1 = .error e →
            (instrumentedBody σ α stepName (some (pol, s₀, fuel)) pre body
              inst now dur).1.state = .failed
            ∧ (instrumentedBody σ α stepName (some (pol, s₀, fuel)) pre body
                inst now dur).2.1 = .error (newStepError stepName e)
            ∧ (instrumentedBody σ α stepName (some (pol, s₀, fuel)) pre body
                inst now dur).1.executionData.retried
              = some (retryerRun pol false body fuel s₀ 0 ⟨0, none⟩).2.1
            ∧ (instrumentedBody σ α stepName (some (pol, s₀, fuel)) pre body
                inst now dur).2.2
              = [.waitPreceding false, .setStartTime now, .setState .running]
                ++ (List.range (retryerRun pol false body fuel s₀ 0 ⟨0, none⟩).2.2).map
                    BodyEvent.invokeUser
                ++ [.setDuration dur, .setState .failed])
        ∧ (∀ v, (retryerRun pol false body fuel s₀ 0 ⟨0, none⟩).1 = .ok v →
            (instrumentedBody σ α stepName (some (pol, s₀, fuel)) pre body
              inst now dur).1.state = .completed
            ∧ (instrumentedBody σ α stepName (some (pol, s₀, fuel)) pre body
                inst now dur).2.1 = .ok v
            ∧ (instrumentedBody σ α stepName (some (pol, s₀, fuel)) pre body
                inst now dur).1.executionData.retried
              = some (retryerRun pol false body fuel s₀ 0 ⟨0, none⟩).2.1
            ∧ (instrumentedBody σ α stepName (some (pol, s₀, fuel)) pre body
                inst now dur).2.2
              = [.waitPreceding false, .setStartTime now, .setState .running]
                ++ (List.range (retryerRun pol false body fuel s₀ 0 ⟨0, none⟩).2.2).map
                    BodyEvent.invokeUser
                ++ [.setDuration dur, .setState .completed])) := by
  refine ⟨?_, ?_, ?_, ?_⟩
  · intro retry
    cases retry with
    | none =>
      cases hb : body 0 <;>
        exact ⟨by simp [instrumentedBody, hw, hb], by simp [instrumentedBody, hw, hb],
          by simp [instrumentedBody, hw, hb]⟩
    | some cfg =>
      obtain ⟨pol, s₀, fuel⟩ := cfg
      cases hr : (retryerRun pol false body fuel s₀ 0 ⟨0, none⟩).1 <;>
        exact ⟨by simp [instrumentedBody, hw, hr], by simp [instrumentedBody, hw, hr],
          by simp [instrumentedBody, hw, hr]⟩
  · intro e he
    refine ⟨by simp [instrumentedBody, hw, he], by simp [instrumentedBody, hw, he], ?_⟩
    simp [instrumentedBody, hw, he, List.range_succ]
  · intro v hv
    refine ⟨by simp [instrumentedBody, hw, hv], by simp [instrumentedBody, hw, hv], ?_⟩
    simp [instrumentedBody, hw, hv, List.range_succ]
  · intro pol s₀ fuel
    refine ⟨?_, ?_, ?_⟩
    · have hpos := retryerRun_attempts_pos pol false body fuel s₀ 0 ⟨0, none⟩
      omega
    · intro e he
      exact ⟨by simp [instrumentedBody, hw, he], by simp [instrumentedBody, hw, he],
        by simp [instrumentedBody, hw, he], by simp [instrumentedBody, hw, he]⟩
    · intro v hv
      exact ⟨by simp [instrumentedBody, hw, hv], by simp [instrumentedBody, hw, hv],
        by simp [instrumentedBody, hw, hv], by simp [instrumentedBody, hw, hv]⟩

/-- C5 witness: a retried step (linear policy, one transient failure then
success) and a non-retried failing step, with concrete predecessors. -/
theorem step_success_path_witness :
    (instrumentedBody LinearRetryState Nat "QueryTable1"
        (some (linearRetryPolicy, newLinearRetryPolicy 3 3, 10)) [none]
        (fun n => if n < 1 then .error (.user "transient") else .ok 7)
        (newStepInstance "QueryTable1") 3 4).1.executionData.startTime = some 3
    ∧ (instrumentedBody LinearRetryState Nat "QueryTable1"
        (some (linearRetryPolicy, newLinearRetryPolicy 3 3, 10)) [none]
        (fun n => if n < 1 then .error (.user "transient") else .ok 7)
        (newStepInstance "QueryTable1") 3 4).1.state = .completed
    ∧ (instrumentedBody LinearRetryState Nat "QueryTable1"
        (some (linearRetryPolicy, newLinearRetryPolicy 3 3, 10)) [none]
        (fun n => if n < 1 then .error (.user "transient") else .ok 7)
        (newStepInstance "QueryTable1") 3 4).2.1 = .ok 7
    ∧ (instrumentedBody LinearRetryState Nat "QueryTable1"
        (some (linearRetryPolicy, newLinearRetryPolicy 3 3, 10)) [none]
        (fun n => if n < 1 then .error (.user "transient") else .ok 7)
        (newStepInstance "QueryTable1") 3 4).2.2
      = [.waitPreceding false, .setStartTime 3, .setState .running]
        ++ (List.range (retryerRun linearRetryPolicy false
              (fun n => if n < 1 then .error (.user "transient") else .ok 7)
              10 (newLinearRetryPolicy 3 3) 0 ⟨0, none⟩).2.2).map BodyEvent.invokeUser
        ++ [.setDuration 4, .setState .completed]
    ∧ (instrumentedBody Unit Nat "GetConnection" none [none]
        (fun _ => .error (.user "x")) (newStepInstance "GetConnection") 3 4).1.state
      = .failed
    ∧ (instrumentedBody Unit Nat "GetConnection" none [none]
        (fun _ => .error (.user "x")) (newStepInstance "GetConnection") 3 4).2.1
      = .error (newStepError "GetConnection" (.user "x")) :=
  ⟨((step_success_path LinearRetryState Nat "QueryTable1" [none]
      (fun n => if n < 1 then .error (.user "transient") else .ok 7)
      (newStepInstance "QueryTable1") 3 4 rfl).1
      (some (linearRetryPolicy, newLinearRetryPolicy 3 3, 10))).1,
   (((step_success_path LinearRetryState Nat "QueryTable1" [none]
      (fun n => if n < 1 then .error (.user "transient") else .ok 7)
      (newStepInstance "QueryTable1") 3 4 rfl).2.2.2
      linearRetryPolicy (newLinearRetryPolicy 3 3) 10).2.2 7 (by rfl)).1,
   (((step_success_path LinearRetryState Nat "QueryTable1" [none]
      (fun n => if n < 1 then .error (.user "transient") else .ok 7)
      (newStepInstance "QueryTable1") 3 4 rfl).2.2.2
      linearRetryPolicy (newLinearRetryPolicy 3 3) 10).2.2 7 (by rfl)).2.1,
   (((step_success_path LinearRetryState Nat "QueryTable1" [none]
      (fun n => if n < 1 then .error (.user "transient") else .ok 7)
      (newStepInstance "QueryTable1") 3 4 rfl).2.2.2
      linearRetryPolicy (newLinearRetryPolicy 3 3) 10).2.2 7 (by rfl)).2.2.2,
   ((step_success_path Unit Nat "GetConnection" [none] (fun _ => .error (.user "x"))
      (newStepInstance "GetConnection") 3 4 rfl).2.1 (.user "x") rfl).1,
   ((step_success_path Unit Nat "GetConnection" [none] (fun _ => .error (.user "x"))
      (newStepInstance "GetConnection") 3 4 rfl).2.1 (.user "x") rfl).2.1⟩

/-- C10: when the instrumented body terminates with `PrecedentFailure`, the
step instance is left entirely unchanged: for a freshly created instance
the state stays `Pending` and neither `startTime` nor `duration` is ever
written, and in general the returned instance equals the input instance. -/
theorem step_precedent_frame (σ α : Type) (stepName iname : String)
    (retry : Option (RetryPolicy σ × σ × Nat))
    (pre : List (Option GoError)) (e : GoError) (hw : waitAll pre = some e)
    (body : Nat → Except GoError α) (now dur : Nat) :
    instrumentedBody σ α stepName retry pre body (newStepInstance iname) now dur
      = (newStepInstance iname, .error (newJobError .precedentStepFailure ""),
         [.waitPreceding true])
    ∧ (instrumentedBody σ α stepName retry pre body (newStepInstance iname) now dur).1.state
      = .pending
    ∧ (instrumentedBody σ α stepName retry pre body
        (newStepInstance iname) now dur).1.executionData.startTime = none
    ∧ (instrumentedBody σ α stepName retry pre body
        (newStepInstance iname) now dur).1.executionData.duration = none
    ∧ ∀ inst : StepInstance,
        (instrumentedBody σ α stepName retry pre body inst now dur).1 = inst := by
  refine ⟨by simp [instrumentedBody, hw], by simp [instrumentedBody, hw, newStepInstance],
    by simp [instrumentedBody, hw, newStepInstance],
    by simp [instrumentedBody, hw, newStepInstance], ?_⟩
  intro inst
  simp [instrumentedBody, hw]

/-- C10 witness: a concrete failing predecessor and fresh instance. -/
theorem step_precedent_frame_witness :
    (instrumentedBody Unit Nat "summarize" none [none, some (GoError.user "q1 failed")]
      (fun _ => .ok 9) (newStepInstance "summarize") 1 2).1.state = StepState.pending :=
  (step_precedent_frame Unit Nat "summarize" "summarize" none
    [none, some (GoError.user "q1 failed")] (GoError.user "q1 failed") rfl
    (fun _ => .ok 9) 1 2).2.1

/-- If the body fails on attempts `base..base+k-1` and succeeds on attempt
`base+k`, and the policy keeps granting retries, the retry driver returns
the success, adds exactly `k` to the report's count, and makes exactly
`k + 1` attempts. -/
theorem retryerRun_fail_then_ok {σ α : Type} (pol : RetryPolicy σ)
    (hpol : ∀ s e, (pol.shouldRetry s e).1 = true)
    (body : Nat → Except GoError α) (v : α) :
    ∀ (k base fuel : Nat) (s : σ) (rep : RetryReport), k ≤ fuel →
      (∀ i, i < k → ∃ e, body (base + i) = .error e) →
      body (base + k) = .ok v →
      ∃ le, retryerRun pol false body fuel s base rep
        = (.ok v, ⟨rep.count + k, le⟩, base + k + 1) := by
  intro k
  induction k with
  | zero =>
    intro base fuel s rep _ _ hok
    rw [Nat.add_zero] at hok
    refine ⟨rep.lastError, ?_⟩
    cases fuel with
    | zero => simp [retryerRun, hok]
    | succ f => simp [retryerRun, hok]
  | succ k ih =>
    intro base fuel s rep hkf hfail hok
    obtain ⟨e₀, he₀⟩ := hfail 0 (by omega)
    rw [Nat.add_zero] at he₀
    cases fuel with
    | zero => omega
    | succ f =>
      have hstep : base + 1 + k = base + (k + 1) := by omega
      have hfail₁ : ∀ i, i < k → ∃ e, body (base + 1 + i) = .error e := by
        intro i hi
        have h₂ : base + 1 + i = base + (i + 1) := by omega
        rw [h₂]
        exact hfail (i + 1) (by omega)
      have hok₁ : body (base + 1 + k) = .ok v := by
        rw [hstep]
        exact hok
      obtain ⟨le, hrec⟩ := ih (base + 1) f
        (pol.sleepInterval (pol.shouldRetry s e₀).2).2 ⟨rep.count + 1, some e₀⟩
        (by omega) hfail₁ hok₁
      refine ⟨le, ?_⟩
      simp only [retryerRun, he₀, hpol s e₀, if_true, Bool.false_eq_true, if_false]
      rw [hrec]
      have hc : rep.count + 1 + k = rep.count + (k + 1) := by omega
      have ha : base + 1 + k + 1 = base + (k + 1) + 1 := by omega
      rw [hc, ha]

/-- Counting invocation events over a run of `n` recorded attempts gives `n`. -/
theorem countP_invoke_range (n : Nat) :
    List.countP (fun ev => match ev with | BodyEvent.invokeUser _ => true | _ => false)
      ((List.range n).map BodyEvent.invokeUser) = n := by
  induction n with
  | zero => simp
  | succ m ih =>
    rw [List.range_succ, List.map_append, List.countP_append, ih]
    simp [List.countP_cons]

/-- C2: for a step with a retry policy whose body fails `k` times and then
succeeds (the policy granting the retries), the recorded retry report has
`count = k` and the user function is attempted exactly `k + 1` times; and
concretely, with a persistent error and the linear retry policy with
`maxRetryCount = 3` on step `QueryTable1`, the step fails with a step error
of code `StepFailed` and `executionData.retried.count = 3` after four
attempts. -/
theorem step_retry_report (σ α : Type) (pol : RetryPolicy σ)
    (hpol : ∀ s e, (pol.shouldRetry s e).1 = true)
    (stepName : String) (pre : List (Option GoError)) (hw : waitAll pre = none)
    (body : Nat → Except GoError α) (v : α) (k fuel : Nat) (s₀ : σ)
    (inst : StepInstance) (now dur : Nat) (hkf : k ≤ fuel)
    (hfail : ∀ i, i < k → ∃ e, body i = .error e)
    (hok : body k = .ok v) :
    ((instrumentedBody σ α stepName (some (pol, s₀, fuel)) pre body
        inst now dur).1.executionData.retried).map RetryReport.count = some k
    ∧ invocationCount (instrumentedBody σ α stepName (some (pol, s₀, fuel)) pre body
        inst now dur).2.2 = k + 1
    ∧ (instrumentedBody σ α stepName (some (pol, s₀, fuel)) pre body
        inst now dur).2.1 = .ok v
    ∧ (instrumentedBody σ α stepName (some (pol, s₀, fuel)) pre body
        inst now dur).1.state = .completed
    ∧ ((instrumentedBody LinearRetryState Nat "QueryTable1"
          (some (linearRetryPolicy, newLinearRetryPolicy 3 3, 10)) [none]
          (fun _ => .error (.user "query exeeded memory limit"))
          (newStepInstance "QueryTable1") 1 1).1.executionData.retried
        = some ⟨3, some (.user "query exeeded memory limit")⟩
      ∧ (instrumentedBody LinearRetryState Nat "QueryTable1"
          (some (linearRetryPolicy, newLinearRetryPolicy 3 3, 10)) [none]
          (fun _ => .error (.user "query exeeded memory limit"))
          (newStepInstance "QueryTable1") 1 1).1.state = .failed
      ∧ (instrumentedBody LinearRetryState Nat "QueryTable1"
          (some (linearRetryPolicy, newLinearRetryPolicy 3 3, 10)) [none]
          (fun _ => .error (.user "query exeeded memory limit"))
          (newStepInstance "QueryTable1") 1 1).2.1
        = .error (newStepError "QueryTable1" (.user "query exeeded memory limit"))
      ∧ (newStepError "QueryTable1" (.user "query exeeded memory limit")).errCode
        = some .stepFailed
      ∧ invocationCount (instrumentedBody LinearRetryState Nat "QueryTable1"
          (some (linearRetryPolicy, newLinearRetryPolicy 3 3, 10)) [none]
          (fun _ => .error (.user "query exeeded memory limit"))
          (newStepInstance "QueryTable1") 1 1).2.2 = 4) := by
  have hfail₀ : ∀ i, i < k → ∃ e, body (0 + i) = .error e := by
    intro i hi
    rw [Nat.zero_add]
    exact hfail i hi
  have hok₀ : body (0 + k) = .ok v := by
    rw [Nat.zero_add]
    exact hok
  obtain ⟨le, hrun⟩ :=
    retryerRun_fail_then_ok pol hpol body v k 0 fuel s₀ ⟨0, none⟩ hkf hfail₀ hok₀
  refine ⟨?_, ?_, ?_, ?_, by rfl, by rfl, by rfl, by rfl, by rfl⟩
  · simp [instrumentedBody, hw, hrun]
  · simp [instrumentedBody, hw, hrun, invocationCount, List.countP_append,
      countP_invoke_range, List.countP_cons, List.countP_nil]
    have hcmp : ((fun ev => match ev with | BodyEvent.invokeUser _ => true | _ => false) ∘
        BodyEvent.invokeUser) = fun _ : Nat => true := rfl
    rw [hcmp, List.countP_true, List.length_range]
  · simp [instrumentedBody, hw, hrun]
  · simp [instrumentedBody, hw, hrun]

/-- C2 witness: a body failing twice then succeeding under an
always-retry policy yields `count = 2` and three attempts. -/
theorem step_retry_report_witness :
    ((instrumentedBody Unit Nat "QueryTable1"
        (some (⟨fun s _ => (true, s), fun s => (0, s)⟩, (), 5)) [none]
        (fun n => if n < 2 then .error (.user "transient") else .ok 42)
        (newStepInstance "QueryTable1") 1 1).1.executionData.retried).map RetryReport.count
      = some 2
    ∧ invocationCount (instrumentedBody Unit Nat "QueryTable1"
        (some (⟨fun s _ => (true, s), fun s => (0, s)⟩, (), 5)) [none]
        (fun n => if n < 2 then .error (.user "transient") else .ok 42)
        (newStepInstance "QueryTable1") 1 1).2.2 = 2 + 1
    ∧ (instrumentedBody Unit Nat "QueryTable1"
        (some (⟨fun s _ => (true, s), fun s => (0, s)⟩, (), 5)) [none]
        (fun n => if n < 2 then .error (.user "transient") else .ok 42)
        (newStepInstance "QueryTable1") 1 1).2.1 = .ok 42
    ∧ (instrumentedBody Unit Nat "QueryTable1"
        (some (⟨fun s _ => (true, s), fun s => (0, s)⟩, (), 5)) [none]
        (fun n => if n < 2 then .error (.user "transient") else .ok 42)
        (newStepInstance "QueryTable1") 1 1).1.state = .completed :=
  ⟨(step_retry_report Unit Nat ⟨fun s _ => (true, s), fun s => (0, s)⟩
      (fun _ _ => rfl) "QueryTable1" [none] rfl
      (fun n => if n < 2 then .error (.user "transient") else .ok 42) 42 2 5 ()
      (newStepInstance "QueryTable1") 1 1 (by omega)
      (fun i hi => ⟨.user "transient", by simp [hi]⟩) (by simp)).1,
   (step_retry_report Unit Nat ⟨fun s _ => (true, s), fun s => (0, s)⟩
      (fun _ _ => rfl) "QueryTable1" [none] rfl
      (fun n => if n < 2 then .error (.user "transient") else .ok 42) 42 2 5 ()
      (newStepInstance "QueryTable1") 1 1 (by omega)
      (fun i hi => ⟨.user "transient", by simp [hi]⟩) (by simp)).2.1,
   (step_retry_report Unit Nat ⟨fun s _ => (true, s), fun s => (0, s)⟩
      (fun _ _ => rfl) "QueryTable1" [none] rfl
      (fun n => if n < 2 then .error (.user "transient") else .ok 42) 42 2 5 ()
      (newStepInstance "QueryTable1") 1 1 (by omega)
      (fun i hi => ⟨.user "transient", by simp [hi]⟩) (by simp)).2.2.1,
   (step_retry_report Unit Nat ⟨fun s _ => (true, s), fun s => (0, s)⟩
      (fun _ _ => rfl) "QueryTable1" [none] rfl
      (fun n => if n < 2 then .error (.user "transient") else .ok 42) 42 2 5 ()
      (newStepInstance "QueryTable1") 1 1 (by omega)
      (fun i hi => ⟨.user "transient", by simp [hi]⟩) (by simp)).2.2.2.1⟩

/-- A builder invocation never changes the sealed latch. -/
theorem addStep_sealedFlag (j : JobDefinition) (n : String) (deps : List String) :
    ((addStep j n deps).1).sealedFlag = j.sealedFlag := by
  unfold addStep
  split
  · rfl
  · split
    · rfl
    · split
      · rfl
      · split <;> simp [jobRegisterStep]

/-- Running operations that neither seal nor start leaves the latch as it
was. -/
theorem runOps_no_seal (ops : List JobOp) :
    ∀ j : JobDefinition, (∀ op ∈ ops, op ≠ JobOp.seal ∧ op ≠ JobOp.start) →
      (runOps j ops).sealedFlag = j.sealedFlag := by
  induction ops with
  | nil => intro j _; rfl
  | cons op rest ih =>
    intro j hops
    have hop := hops op (List.mem_cons_self op rest)
    cases op
    · exact absurd rfl hop.1
    · exact absurd rfl hop.2
    · rename_i n deps
      rw [runOps, ih _ (fun o ho => hops o (List.mem_cons_of_mem _ ho))]
      exact addStep_sealedFlag j n deps

/-- Once the latch is set, no operation resets it. -/
theorem runOps_sealed (ops : List JobOp) :
    ∀ j : JobDefinition, j.sealedFlag = true → (runOps j ops).sealedFlag = true := by
  induction ops with
  | nil => intro j h; exact h
  | cons op rest ih =>
    intro j h
    rw [runOps]
    apply ih
    cases op
    · rfl
    · rfl
    · rename_i n deps
      rw [show (applyOp j (JobOp.builder n deps)).1 = (addStep j n deps).1 from rfl,
        addStep_sealedFlag]
      exact h

/-- C3: sealing is monotonic: a fresh definition is unsealed and stays
unsealed over any run of builder-only operations; once the latch is set
(by `Start` or an explicit `Seal`) no later operation ever resets it; and a
builder invocation on a sealed definition fails with `JobSealed`, leaving
the definition unchanged. -/
theorem sealing_monotonic :
    (∀ name : String, (newJobDefinition name).sealedFlag = false)
    ∧ (∀ (name : String) (ops : List JobOp),
        (∀ op ∈ ops, op ≠ JobOp.seal ∧ op ≠ JobOp.start) →
        (runOps (newJobDefinition name) ops).sealedFlag = false)
    ∧ (∀ (j : JobDefinition) (ops : List JobOp), j.sealedFlag = true →
        (runOps j ops).sealedFlag = true)
    ∧ (∀ (j : JobDefinition) (n : String) (deps : List String), j.sealedFlag = true →
        applyOp j (JobOp.builder n deps) = (j, some errJobSealed)
        ∧ (errJobSealed.errCode = some .jobSealed)) := by
  refine ⟨fun name => rfl, ?_, ?_, ?_⟩
  · intro name ops hops
    rw [runOps_no_seal ops _ hops]
    rfl
  · intro j ops h
    exact runOps_sealed ops j h
  · intro j n deps h
    refine ⟨?_, rfl⟩
    simp [applyOp, addStep, h]

/-- C3 witness: a sealed definition rejects a builder call with `JobSealed`,
and a seal followed by builder calls stays sealed. -/
theorem sealing_monotonic_witness :
    applyOp { newJobDefinition "sqlSummaryJob" with sealedFlag := true }
        (JobOp.builder "EmailNotification2" [])
      = ({ newJobDefinition "sqlSummaryJob" with sealedFlag := true }, some errJobSealed)
    ∧ (runOps { newJobDefinition "sqlSummaryJob" with sealedFlag := true }
        [JobOp.builder "EmailNotification2" [], JobOp.seal]).sealedFlag = true :=
  ⟨(sealing_monotonic.2.2.2 { newJobDefinition "sqlSummaryJob" with sealedFlag := true }
      "EmailNotification2" [] rfl).1,
   sealing_monotonic.2.2.1 { newJobDefinition "sqlSummaryJob" with sealedFlag := true }
      [JobOp.builder "EmailNotification2" [], JobOp.seal] rfl⟩

/-- C9: `wait` is idempotent: on a terminated job instance it does not
mutate the instance, and a repeated call returns exactly the error (or
`none`) of the first call. -/
theorem jobWait_idempotent (ji : JobInstanceModel) (_h : ji.Terminated) :
    (jobWait (jobWait ji).2).1 = (jobWait ji).1 ∧ (jobWait ji).2 = ji :=
  ⟨rfl, rfl⟩

/-- C9 witness: a concrete terminated two-step instance. -/
theorem jobWait_idempotent_witness :
    (jobWait (jobWait ⟨[⟨"GetConnection", .completed, none⟩,
        ⟨"QueryTable1", .failed, some (.stepError "QueryTable1" (.user "q"))⟩]⟩).2).1
      = (jobWait ⟨[⟨"GetConnection", .completed, none⟩,
        ⟨"QueryTable1", .failed, some (.stepError "QueryTable1" (.user "q"))⟩]⟩).1
    ∧ (jobWait ⟨[⟨"GetConnection", .completed, none⟩,
        ⟨"QueryTable1", .failed, some (.stepError "QueryTable1" (.user "q"))⟩]⟩).2
      = ⟨[⟨"GetConnection", .completed, none⟩,
        ⟨"QueryTable1", .failed, some (.stepError "QueryTable1" (.user "q"))⟩]⟩ :=
  jobWait_idempotent ⟨[⟨"GetConnection", .completed, none⟩,
    ⟨"QueryTable1", .failed, some (.stepError "QueryTable1" (.user "q"))⟩]⟩ (by decide)

/-- Registering with a nonempty preceding list yields an incoming edge. -/
theorem mem_stepEdges_register (j : JobDefinition) (stepD : StepDefMeta)
    (preceding : List StepDefMeta) (hne : preceding ≠ []) :
    ∃ p, (p, stepD.name) ∈ (jobRegisterStep j stepD preceding).stepEdges := by
  cases preceding with
  | nil => exact absurd rfl hne
  | cons q rest =>
    exact ⟨q.name, by simp [jobRegisterStep]⟩

/-- Successful dependency resolution returns one step per declared name. -/
theorem getDependsOnSteps_length :
    ∀ (deps : List String) (j : JobDefinition) (l : List StepDefMeta),
      getDependsOnSteps deps j = .ok l → l.length = deps.length := by
  intro deps j
  induction deps with
  | nil =>
    intro l h
    injection h with h₁
    rw [← h₁]
    rfl
  | cons d rest ih =>
    intro l h
    rw [getDependsOnSteps] at h
    cases hd : assocGet j.steps d with
    | none => rw [hd] at h; simp at h
    | some s =>
      rw [hd] at h
      cases hr : getDependsOnSteps rest j with
      | error e => rw [hr] at h; simp [Except.map] at h
      | ok l₁ =>
        rw [hr] at h
        simp only [Except.map] at h
        injection h with h₁
        rw [← h₁]
        simp [ih l₁ hr]

/-- A dependency-resolution error is a step-not-found error for some
declared name that is missing from the registry. -/
theorem getDependsOnSteps_error :
    ∀ (deps : List String) (j : JobDefinition) (e : GoError),
      getDependsOnSteps deps j = .error e →
      ∃ d, d ∈ deps ∧ assocGet j.steps d = none ∧ e = errStepNotFound d := by
  intro deps j
  induction deps with
  | nil => intro e h; simp [getDependsOnSteps] at h
  | cons d rest ih =>
    intro e h
    rw [getDependsOnSteps] at h
    cases hd : assocGet j.steps d with
    | none =>
      rw [hd] at h
      injection h with h₁
      exact ⟨d, List.mem_cons_self d rest, hd, h₁.symm⟩
    | some s =>
      rw [hd] at h
      cases hr : getDependsOnSteps rest j with
      | error e₁ =>
        rw [hr] at h
        simp only [Except.map] at h
        injection h with h₁
        obtain ⟨d₁, hm, hn, he⟩ := ih e₁ hr
        exact ⟨d₁, List.mem_cons_of_mem d hm, hn, h₁ ▸ he⟩
      | ok l₁ => rw [hr] at h; simp [Except.map] at h

/-- If some declared name is missing, dependency resolution fails. -/
theorem getDependsOnSteps_error_of_missing :
    ∀ (deps : List String) (j : JobDefinition),
      (∃ d ∈ deps, assocGet j.steps d = none) →
      ∃ e, getDependsOnSteps deps j = .error e := by
  intro deps j
  induction deps with
  | nil => intro h; simp at h
  | cons d rest ih =>
    intro h
    cases hd : assocGet j.steps d with
    | none => exact ⟨errStepNotFound d, by rw [getDependsOnSteps, hd]⟩
    | some s =>
      obtain ⟨d₁, hm, hn⟩ := h
      rcases List.mem_cons.mp hm with rfl | hm₁
      · rw [hd] at hn; cases hn
      · obtain ⟨e, he⟩ := ih ⟨d₁, hm₁, hn⟩
        exact ⟨e, by rw [getDependsOnSteps, hd, he]; rfl⟩

/-- C7: every builder attaches at least one predecessor to the step it
registers; in particular a step declared with no dependencies is gated by
an implicit edge from the job's root step. -/
theorem builders_root_gating :
    (∀ (j : JobDefinition) (n : String) (deps : List String)
       (j₁ : JobDefinition) (stepD : StepDefMeta),
       addStep j n deps = (j₁, .ok stepD) →
       (∃ p, (p, n) ∈ j₁.stepEdges) ∧ (deps = [] → (j.rootStep.name, n) ∈ j₁.stepEdges))
    ∧ (∀ (j : JobDefinition) (n : String) (parent : StepDefMeta) (deps : List String)
        (j₁ : JobDefinition) (stepD : StepDefMeta),
        stepAfter j n parent deps = (j₁, .ok stepD) → ∃ p, (p, n) ∈ j₁.stepEdges)
    ∧ (∀ (j : JobDefinition) (n : String) (p₁ p₂ : StepDefMeta) (deps : List String)
        (j₁ : JobDefinition) (stepD : StepDefMeta),
        stepAfterBoth j n p₁ p₂ deps = (j₁, .ok stepD) → ∃ p, (p, n) ∈ j₁.stepEdges)
    ∧ (∀ (j : JobDefinition) (n : String) (deps : List String)
        (j₁ : JobDefinition) (stepD : StepDefMeta),
        stepFromJobInput j n deps = (j₁, .ok stepD) → ∃ p, (p, n) ∈ j₁.stepEdges) := by
  have hAfter : ∀ (j : JobDefinition) (n : String) (parent : StepDefMeta)
      (deps : List String) (j₁ : JobDefinition) (stepD : StepDefMeta),
      stepAfter j n parent deps = (j₁, .ok stepD) → ∃ p, (p, n) ∈ j₁.stepEdges := by
    intro j n parent deps j₁ stepD h
    unfold stepAfter at h
    split at h
    · simp at h
    · split at h
      · split at h
        · simp at h
        · split at h
          · simp at h
          · rename_i preceding heq
            split at h
            · injection h with h₁ h₂
              rw [← h₁]
              exact mem_stepEdges_register j ⟨n, deps ++ [parent.name]⟩ [j.rootStep] (by simp)
            · rename_i he
              injection h with h₁ h₂
              rw [← h₁]
              exact mem_stepEdges_register j ⟨n, deps ++ [parent.name]⟩ preceding
                (fun hnil => he (by simp [hnil]))
      · simp at h
  refine ⟨?_, hAfter, ?_, ?_⟩
  · intro j n deps j₁ stepD h
    unfold addStep at h
    split at h
    · simp at h
    · split at h
      · simp at h
      · split at h
        · simp at h
        · rename_i preceding heq
          split at h
          · injection h with h₁ h₂
            refine ⟨?_, fun _ => ?_⟩
            · rw [← h₁]
              exact mem_stepEdges_register j ⟨n, deps ++ [j.rootStep.name]⟩ [j.rootStep]
                (by simp)
            · rw [← h₁]
              simp [jobRegisterStep]
          · rename_i he
            injection h with h₁ h₂
            refine ⟨?_, fun hdeps => ?_⟩
            · rw [← h₁]
              exact mem_stepEdges_register j ⟨n, deps⟩ preceding
                (fun hnil => he (by simp [hnil]))
            · subst hdeps
              have hlen := getDependsOnSteps_length [] j preceding heq
              simp at hlen
              exact absurd (by simp [hlen]) he
  · intro j n p₁ p₂ deps j₁ stepD h
    unfold stepAfterBoth at h
    split at h
    · simp at h
    · split at h
      · split at h
        · split at h
          · simp at h
          · split at h
            · simp at h
            · rename_i preceding heq
              split at h
              · injection h with h₁ h₂
                rw [← h₁]
                exact mem_stepEdges_register j ⟨n, deps ++ [p₁.name, p₂.name]⟩ [j.rootStep]
                  (by simp)
              · rename_i he
                injection h with h₁ h₂
                rw [← h₁]
                exact mem_stepEdges_register j ⟨n, deps ++ [p₁.name, p₂.name]⟩ preceding
                  (fun hnil => he (by simp [hnil]))
        · simp at h
      · simp at h
  · intro j n deps j₁ stepD h
    exact hAfter j n j.rootStep deps j₁ stepD h

/-- C7 witness: adding a dependency-free step to a fresh definition wires
it to the root step. -/
theorem builders_root_gating_witness :
    (∃ p, (p, "CheckAuth") ∈ (addStep sampleJobDef "CheckAuth" []).1.stepEdges)
    ∧ (sampleJobDef.rootStep.name, "CheckAuth")
        ∈ (addStep sampleJobDef "CheckAuth" []).1.stepEdges :=
  ⟨(builders_root_gating.1 sampleJobDef "CheckAuth" []
      (addStep sampleJobDef "CheckAuth" []).1
      ⟨"CheckAuth", ["sqlSummaryJob"]⟩ rfl).1,
   (builders_root_gating.1 sampleJobDef "CheckAuth" []
      (addStep sampleJobDef "CheckAuth" []).1
      ⟨"CheckAuth", ["sqlSummaryJob"]⟩ rfl).2 rfl⟩

/-- C6: on an unsealed definition, every builder fails with a
`StepNotFound`-kind error when a named predecessor is absent (resolution
errors are exactly step-not-found errors for a declared-but-missing name,
and a missing name always produces one), fails with `DuplicateStep` when
the new step's name collides with a registered step, and in all these
cases returns the job definition unchanged. -/
theorem builders_validation
    (j : JobDefinition) (hseal : j.sealedFlag = false)
    (n : String) (deps : List String) (parent p₂ : StepDefMeta) :
    (∀ e, assocGet j.steps n = none → getDependsOnSteps deps j = .error e →
       addStep j n deps = (j, .error e))
    ∧ (∀ e, getDependsOnSteps deps j = .error e →
        ∃ d, d ∈ deps ∧ assocGet j.steps d = none ∧ e = errStepNotFound d)
    ∧ ((∃ d ∈ deps, assocGet j.steps d = none) →
        ∃ e, getDependsOnSteps deps j = .error e)
    ∧ ((assocGet j.steps n).isSome = true →
        addStep j n deps = (j, .error (errDuplicateStep n)))
    ∧ (¬ assocGet j.steps parent.name = some parent →
        stepAfter j n parent deps = (j, .error (errParentNotFound parent.name)))
    ∧ (assocGet j.steps parent.name = some parent → assocGet j.steps n = none →
        ∀ e, getDependsOnSteps (deps ++ [parent.name]) j = .error e →
          stepAfter j n parent deps = (j, .error e))
    ∧ (assocGet j.steps parent.name = some parent → (assocGet j.steps n).isSome = true →
        stepAfter j n parent deps = (j, .error (errDuplicateStep n)))
    ∧ (¬ assocGet j.steps parent.name = some parent →
        stepAfterBoth j n parent p₂ deps = (j, .error (errParentNotFound parent.name)))
    ∧ (assocGet j.steps parent.name = some parent → ¬ assocGet j.steps p₂.name = some p₂ →
        stepAfterBoth j n parent p₂ deps = (j, .error (errParentNotFound p₂.name)))
    ∧ (assocGet j.steps parent.name = some parent → assocGet j.steps p₂.name = some p₂ →
        (assocGet j.steps n).isSome = true →
        stepAfterBoth j n parent p₂ deps = (j, .error (errDuplicateStep n)))
    ∧ (assocGet j.steps j.rootStep.name = some j.rootStep →
        (assocGet j.steps n).isSome = true →
        stepFromJobInput j n deps = (j, .error (errDuplicateStep n)))
    ∧ (assocGet j.steps j.rootStep.name = some j.rootStep → assocGet j.steps n = none →
        ∀ e, getDependsOnSteps (deps ++ [j.rootStep.name]) j = .error e →
          stepFromJobInput j n deps = (j, .error e))
    ∧ (errStepNotFound n).errCode = some .stepNotFound
    ∧ (errParentNotFound n).errCode = some .stepNotFound
    ∧ (errDuplicateStep n).errCode = some .duplicateStep := by
  refine ⟨?_, ?_, ?_, ?_, ?_, ?_, ?_, ?_, ?_, ?_, ?_, ?_, rfl, rfl, rfl⟩
  · intro e hn hg
    simp [addStep, hseal, hn, hg]
  · intro e hg
    exact getDependsOnSteps_error deps j e hg
  · exact getDependsOnSteps_error_of_missing deps j
  · intro hd
    simp [addStep, hseal, hd]
  · intro hp
    simp [stepAfter, hseal, hp]
  · intro hp hn e hg
    simp [stepAfter, hseal, hp, hn, hg]
  · intro hp hd
    simp [stepAfter, hseal, hp, hd]
  · intro hp
    simp [stepAfterBoth, hseal, hp]
  · intro hp hp₂
    simp [stepAfterBoth, hseal, hp, hp₂]
  · intro hp hp₂ hd
    simp [stepAfterBoth, hseal, hp, hp₂, hd]
  · intro hroot hd
    simp [stepFromJobInput, stepAfter, hseal, hroot, hd]
  · intro hroot hn e hg
    simp [stepFromJobInput, stepAfter, hseal, hroot, hn, hg]

/-- C6 witness: on a fresh definition, reusing the root step's name fails
with `DuplicateStep` and declaring an unknown dependency fails with
`StepNotFound`, in both cases leaving the definition unchanged. -/
theorem builders_validation_witness :
    addStep sampleJobDef "sqlSummaryJob" []
      = (sampleJobDef, .error (errDuplicateStep "sqlSummaryJob"))
    ∧ addStep sampleJobDef "CheckAuth" ["nope"]
      = (sampleJobDef, .error (errStepNotFound "nope")) :=
  ⟨(builders_validation sampleJobDef rfl "sqlSummaryJob" [] sampleJobDef.rootStep
      sampleJobDef.rootStep).2.2.2.1 rfl,
   (builders_validation sampleJobDef rfl "CheckAuth" ["nope"] sampleJobDef.rootStep
      sampleJobDef.rootStep).1 (errStepNotFound "nope") rfl rfl⟩

end AsyncJob
